import Mathlib

/-!
Shallow embedding of the Horizon property-rental booking backend
(`src/app.py`): the credential store with host/guest signup and login, the
property catalog with its filtered/sorted/paginated listing query, and the
booking ledger whose create/delete operations toggle the referenced
property's availability status.

Python integers are modelled by `Int`/`Nat` (they are unbounded); Python's
floor division `//` is `Int.fdiv`; MongoDB documents are Lean structures,
collections are lists, `find_one`/`update_one`/`delete_one` act on the
first matching element; store-generated fresh ids are modelled by a
`nextId` counter.  The bcrypt hash and verify functions are external
library calls and enter as function parameters.
-/

namespace Horizon

/-- A document of the `properties` collection (class `Property` in
`src/app.py`, same field order). -/
structure Property where
  id : Nat
  title : String
  location : String
  property_type : String
  description : String
  price_per_night : Int
  status : Bool
  img : String
deriving DecidableEq, Repr

/-- A document of the `book` collection (class `Booking` in `src/app.py`,
same field order).  `property_id` is `none` when the request carried a
falsy (absent / null) property id. -/
structure Booking where
  id : Nat
  property_id : Option Nat
  property_title : String
  price_per_night : Int
  property_location : String
  property_img : String
  book_date : String
  end_date : String
deriving DecidableEq, Repr

/-- The JSON body of `POST /api/properties/book`. -/
structure BookingRequest where
  property_id : Option Nat
  property_title : String
  price_per_night : Int
  property_location : String
  property_img : String
  book_date : String
  end_date : String
deriving DecidableEq, Repr

/-- The mutable store state the booking routes touch: the `properties`
collection, the `book` collection, and the id generator. -/
structure AppState where
  properties : List Property
  book : List Booking
  nextId : Nat
deriving DecidableEq, Repr

/-- A host or guest credential record (email plus stored password hash). -/
structure Cred where
  id : Nat
  email : String
  password : String
deriving DecidableEq, Repr

/-- The auth-side store state: `hosts` and `guests` collections plus the id
generator. -/
structure AuthState where
  hosts : List Cred
  guests : List Cred
  nextId : Nat
deriving DecidableEq, Repr

/-- Outcome of a signup route: `conflict` is the 400 "Email already exists"
response, `created id` the 201 response carrying the fresh identity. -/
inductive SignupResult where
  | conflict
  | created (id : Nat)
deriving DecidableEq, Repr

/-- Outcome of a login route: `unauthorized` is the 401 "Invalid
credentials" response; `hostSuccess` carries the host id the host route
returns; the guest route returns only a message. -/
inductive LoginResult where
  | unauthorized
  | hostSuccess (id : Nat)
  | guestSuccess
deriving DecidableEq, Repr

/-- Outcome of `DELETE /api/properties/book/<id>`: 200 vs 404. -/
inductive DeleteResult where
  | ok
  | notFound
deriving DecidableEq, Repr

/-! ### Pagination arithmetic (`get_all_properties`, lines 157-161) -/

/-- Line 158: `total_pages = (total_properties - 1) // per_page + 1`,
with Python's floor division. -/
def totalPages (total : Nat) (per_page : Int) : Int :=
  ((total : Int) - 1).fdiv per_page + 1

/-- Line 159: `page = max(1, min(page, total_pages))`. -/
def clampPage (page tp : Int) : Int :=
  max 1 (min page tp)

/-- Lines 160-161: `skip = (page - 1) * per_page; skip = max(0, skip)`. -/
def skipVal (page per_page : Int) : Int :=
  max 0 ((page - 1) * per_page)

/-- The spec's rounded-up page count `ceil(total/per_page)`, written with
natural division, used to compare the code's arithmetic against the spec's
words. -/
def ceilPages (total per_page : Nat) : Nat :=
  (total + per_page - 1) / per_page

/-! ### Filtering and sorting (`get_all_properties`) -/

/-- Does the first char list start the second? -/
def charsStart : List Char → List Char → Bool
  | [], _ => true
  | _ :: _, [] => false
  | a :: as, b :: bs => a == b && charsStart as bs

/-- Does the first char list occur inside the second? -/
def charsOccur (pat : List Char) : List Char → Bool
  | [] => charsStart pat []
  | c :: rest => charsStart pat (c :: rest) || charsOccur pat rest

/-- Case-insensitive substring test: the `$regex ... $options i` title
filter with a literal pattern. -/
def iContains (hay pat : String) : Bool :=
  charsOccur pat.toLower.toList hay.toLower.toList

/-- The `filter_query` of lines 149-155: an empty filter string means the
clause is absent; title matches as case-insensitive substring, type and
location as exact equality. -/
def matchesFilter (tf pf lf : String) (p : Property) : Bool :=
  (tf == "" || iContains p.title tf) &&
  (pf == "" || p.property_type == pf) &&
  (lf == "" || p.location == lf)

/-- Lexicographic order on char lists, standing in for MongoDB's string
comparison in sorts. -/
def charsLe : List Char → List Char → Bool
  | [], _ => true
  | _ :: _, [] => false
  | a :: as, b :: bs =>
    if a.val < b.val then true
    else if b.val < a.val then false
    else charsLe as bs

/-- The sort key of a property under a `sort_by` field name, as a string;
`price_per_night` is compared numerically instead. -/
def fieldKey (p : Property) : String → String
  | "title" => p.title
  | "location" => p.location
  | "property_type" => p.property_type
  | "description" => p.description
  | "img" => p.img
  | _ => ""

/-- Ascending comparison of two properties under a `sort_by` field. -/
def keyLe (sort_by : String) (a b : Property) : Bool :=
  if sort_by == "price_per_night" then a.price_per_night ≤ b.price_per_night
  else charsLe (fieldKey a sort_by).toList (fieldKey b sort_by).toList

/-- The `properties.sort(sort_by, sort_order)` comparison: `sort_order` below
zero reverses the ascending order. -/
def propLe (sort_by : String) (sort_order : Int) (a b : Property) : Bool :=
  if sort_order < 0 then keyLe sort_by b a else keyLe sort_by a b

/-- Insert into a sorted list, keeping the comparison's order. -/
def insertLe (le : Property → Property → Bool) (x : Property) :
    List Property → List Property
  | [] => [x]
  | y :: ys => if le x y then x :: y :: ys else y :: insertLe le x ys

/-- Insertion sort by the given comparison. -/
def sortByLe (le : Property → Property → Bool) : List Property → List Property
  | [] => []
  | x :: xs => insertLe le x (sortByLe le xs)

/-- The cursor's `.sort(sort_by, sort_order)`, applied only when `sort_by`
is non-empty (line 164). -/
def sortProps (sort_by : String) (sort_order : Int) (l : List Property) :
    List Property :=
  if sort_by == "" then l else sortByLe (propLe sort_by sort_order) l

/-- Route `GET /api/properties` (`get_all_properties`): filter, count, derive
`total_pages`, clamp `page`, compute `skip`, then sort and return the
`skip`/`limit` window of the matching documents. -/
def get_all_properties (props : List Property) (sort_by : String)
    (sort_order : Int) (page per_page : Int) (tf pf lf : String) :
    List Property :=
  let matching := props.filter (matchesFilter tf pf lf)
  let tp := totalPages matching.length per_page
  let cp := clampPage page tp
  let sk := skipVal cp per_page
  ((sortProps sort_by sort_order matching).drop sk.toNat).take per_page.toNat

/-! ### Property catalog CRUD -/

/-- Lookup `find_one({"_id": pid})` on the `properties` collection. -/
def findProp (props : List Property) (pid : Nat) : Option Property :=
  props.find? (fun p => p.id == pid)

/-- Update `update_one({"_id": pid}, {"$set": {"status": st}})`: the first
matching document gets its status replaced; nothing else changes. -/
def setStatus (props : List Property) (pid : Nat) (st : Bool) :
    List Property :=
  match props with
  | [] => []
  | p :: rest =>
    if p.id == pid then { p with status := st } :: rest
    else p :: setStatus rest pid st

/-- A partial `$set` payload for `PUT /api/properties/<id>`: each absent
field is left untouched. -/
structure PropertyPatch where
  title : Option String := none
  location : Option String := none
  property_type : Option String := none
  description : Option String := none
  price_per_night : Option Int := none
  status : Option Bool := none
  img : Option String := none
deriving DecidableEq, Repr

/-- Merge a `$set` payload into a stored document. -/
def applyPatch (p : Property) (u : PropertyPatch) : Property :=
  { p with
    title := u.title.getD p.title
    location := u.location.getD p.location
    property_type := u.property_type.getD p.property_type
    description := u.description.getD p.description
    price_per_night := u.price_per_night.getD p.price_per_night
    status := u.status.getD p.status
    img := u.img.getD p.img }

/-- Update `update_one({"_id": pid}, {"$set": data})`: patch the first matching
document. -/
def updateFirst (props : List Property) (pid : Nat) (u : PropertyPatch) :
    List Property :=
  match props with
  | [] => []
  | p :: rest =>
    if p.id == pid then applyPatch p u :: rest
    else p :: updateFirst rest pid u

/-- Route `PUT /api/properties/<id>` (`update_property`): runs the update and
answers 200 with a fixed message, whether or not any document matched. -/
def update_property (props : List Property) (pid : Nat)
    (u : PropertyPatch) : List Property × String :=
  (updateFirst props pid u, "Property updated successfully")

/-! ### Booking ledger -/

/-- The `Booking` document built from a request body, with the fresh id. -/
def mkBooking (bid : Nat) (req : BookingRequest) : Booking :=
  { id := bid
    property_id := req.property_id
    property_title := req.property_title
    price_per_night := req.price_per_night
    property_location := req.property_location
    property_img := req.property_img
    book_date := req.book_date
    end_date := req.end_date }

/-- Route `POST /api/properties/book` (`post_property_to_book_collection`):
insert the booking, then — only when the request carried a property id —
set that property's status to false.  Returns the new state and the fresh
booking id the 201 response carries. -/
def post_property_to_book_collection (s : AppState) (req : BookingRequest) :
    AppState × Nat :=
  let b := mkBooking s.nextId req
  let s1 : AppState :=
    { s with book := s.book ++ [b], nextId := s.nextId + 1 }
  match req.property_id with
  | some pid =>
    ({ s1 with properties := setStatus s1.properties pid false }, b.id)
  | none => (s1, b.id)

/-- Delete `delete_one({"_id": bid})` on the `book` collection: remove the first
matching document. -/
def eraseBooking (book : List Booking) (bid : Nat) : List Booking :=
  match book with
  | [] => []
  | b :: rest => if b.id == bid then rest else b :: eraseBooking rest bid

/-- Route `DELETE /api/properties/book/<id>` (`delete_book_data`): look the
booking up to recover its property id; if absent answer 404 untouched;
otherwise delete it and — when it carried a property id — set that
property's status back to true. -/
def delete_book_data (s : AppState) (bid : Nat) : AppState × DeleteResult :=
  match s.book.find? (fun b => b.id == bid) with
  | none => (s, .notFound)
  | some be =>
    let s1 : AppState := { s with book := eraseBooking s.book bid }
    match be.property_id with
    | some pid =>
      ({ s1 with properties := setStatus s1.properties pid true }, .ok)
    | none => (s1, .ok)

/-- Does some booking in the ledger reference the property id? -/
def refsProp (book : List Booking) (pid : Nat) : Bool :=
  book.any (fun b => b.property_id == some pid)

/-- The availability invariant of the spec: a property's status is false
exactly while at least one booking references it. -/
def statusInvariant (s : AppState) : Bool :=
  s.properties.all (fun p => p.status == !refsProp s.book p.id)

/-- No two bookings in the ledger reference the same property (the
one-active-booking-per-property regime). -/
def atMostOneActive : List Booking → Bool
  | [] => true
  | b :: rest =>
    rest.all (fun c => !(b.property_id.isSome && b.property_id == c.property_id))
      && atMostOneActive rest

/-! ### Auth service -/

/-- Route `POST /signup/host` (`host_signup`): 400 Conflict when the email
already exists among hosts, else insert the hashed record and answer 201
with the fresh id.  `hash` is the external bcrypt `hashpw`. -/
def host_signup (hash : String → String) (s : AuthState)
    (email password : String) : AuthState × SignupResult :=
  match s.hosts.find? (fun c => c.email == email) with
  | some _ => (s, .conflict)
  | none =>
    ({ s with
        hosts := s.hosts ++ [⟨s.nextId, email, hash password⟩]
        nextId := s.nextId + 1 }, .created s.nextId)

/-- Route `POST /signup/guest` (`guest_signup`): same shape over the guests
collection. -/
def guest_signup (hash : String → String) (s : AuthState)
    (email password : String) : AuthState × SignupResult :=
  match s.guests.find? (fun c => c.email == email) with
  | some _ => (s, .conflict)
  | none =>
    ({ s with
        guests := s.guests ++ [⟨s.nextId, email, hash password⟩]
        nextId := s.nextId + 1 }, .created s.nextId)

/-- Route `POST /login/host` (`host_login`): 401 when no host carries the email
or the hash check fails, else 200 with the host id.  `verify` is the
external bcrypt `checkpw`. -/
def host_login (verify : String → String → Bool) (s : AuthState)
    (email password : String) : LoginResult :=
  match s.hosts.find? (fun c => c.email == email) with
  | none => .unauthorized
  | some h =>
    if verify h.password password then .hostSuccess h.id else .unauthorized

/-- Route `POST /login/guest` (`guest_login`): same shape over guests; the 200
response carries no id. -/
def guest_login (verify : String → String → Bool) (s : AuthState)
    (email password : String) : LoginResult :=
  match s.guests.find? (fun c => c.email == email) with
  | none => .unauthorized
  | some g =>
    if verify g.password password then .guestSuccess else .unauthorized

/-! ### Helper lemmas -/

/-- Floor division agrees with natural division on natural operands. -/
lemma fdiv_natCast (m n : Nat) :
    ((m : Int)).fdiv (n : Int) = ((m / n : Nat) : Int) := by
  rw [Int.fdiv_eq_ediv _ (by positivity)]
  exact (Int.natCast_div m n).symm

/-- With no matching documents the code's page count is zero, not one. -/
lemma totalPages_zero {p : Int} (hp : 0 < p) : totalPages 0 p = 0 := by
  unfold totalPages
  rw [Int.fdiv_eq_ediv _ hp.le]
  have h3 : (-1 : Int) ≤ ((0 : Nat) : Int) - 1 := by norm_num
  have hlt : ((0 : Nat) : Int) - 1 < 0 := by norm_num
  have hneg := Int.ediv_neg' hlt hp
  have hge : (-1 : Int) ≤ (((0 : Nat) : Int) - 1) / p := by
    rw [Int.le_ediv_iff_mul_le hp]
    omega
  omega

/-- With at least one matching document the code's page count is exactly
the spec's rounded-up quotient. -/
lemma totalPages_pos {t : Nat} {p : Int} (ht : 0 < t) (hp : 0 < p) :
    totalPages t p = ((ceilPages t p.toNat : Nat) : Int) := by
  obtain ⟨n, rfl⟩ := Int.eq_ofNat_of_zero_le hp.le
  have hn : 0 < n := by exact_mod_cast hp
  unfold totalPages ceilPages
  have hcast : ((t : Int) - 1) = ((t - 1 : Nat) : Int) := by
    have := ht
    push_cast [Nat.cast_sub ht]
    ring
  rw [hcast, fdiv_natCast]
  have htn : Int.toNat (n : Int) = n := Int.toNat_natCast n
  rw [htn]
  have harith : (t + n - 1) / n = (t - 1) / n + 1 := by
    have hsum : t + n - 1 = (t - 1) + n := by omega
    rw [hsum, Nat.add_div_right _ hn]
  rw [harith]
  push_cast
  ring

/-- The clamped page is at least one. -/
lemma one_le_clampPage (page tp : Int) : 1 ≤ clampPage page tp :=
  le_max_left 1 _

/-- The clamped page never exceeds an upper bound that dominates the page
count and one. -/
lemma clampPage_le {page tp b : Int} (hb : 1 ≤ b) (h : tp ≤ b) :
    clampPage page tp ≤ b :=
  max_le hb (le_trans (min_le_right _ _) h)

/-- The computed skip is never negative. -/
lemma skipVal_nonneg (page p : Int) : 0 ≤ skipVal page p :=
  le_max_left 0 _

/-- A `$set` on a list with no matching document changes nothing. -/
lemma setStatus_no_match {props : List Property} {pid : Nat} {st : Bool}
    (h : ∀ p ∈ props, p.id ≠ pid) : setStatus props pid st = props := by
  induction props with
  | nil => rfl
  | cons p rest ih =>
    have hp : p.id ≠ pid := h p (List.mem_cons_self p rest)
    simp only [setStatus, beq_iff_eq, if_neg hp]
    rw [ih (fun q hq => h q (List.mem_cons_of_mem p hq))]

/-- A status `$set` then lookup of the same id: the looked-up document
is the stored one with its status replaced. -/
lemma findProp_setStatus (props : List Property) (pid : Nat) (st : Bool) :
    findProp (setStatus props pid st) pid =
      (findProp props pid).map (fun p => { p with status := st }) := by
  induction props with
  | nil => rfl
  | cons p rest ih =>
    by_cases hp : p.id = pid
    · simp [setStatus, findProp, List.find?_cons, hp]
    · simp only [setStatus, beq_iff_eq, if_neg hp]
      simpa [findProp, List.find?_cons, hp] using ih

/-- Looking up a freshly appended document by its fresh id finds it, when
no earlier document carries that id. -/
lemma find?_append_fresh {book : List Booking} (nb : Booking)
    (h : ∀ b ∈ book, b.id ≠ nb.id) :
    (book ++ [nb]).find? (fun b => b.id == nb.id) = some nb := by
  induction book with
  | nil => simp [List.find?]
  | cons b rest ih =>
    have hb : b.id ≠ nb.id := h b (List.mem_cons_self b rest)
    simpa [List.find?_cons, hb] using
      ih (fun q hq => h q (List.mem_cons_of_mem b hq))

/-- Deleting a freshly appended document by its fresh id removes exactly
it, when no earlier document carries that id. -/
lemma eraseBooking_append_fresh {book : List Booking} (nb : Booking)
    (h : ∀ b ∈ book, b.id ≠ nb.id) :
    eraseBooking (book ++ [nb]) nb.id = book := by
  induction book with
  | nil => simp [eraseBooking]
  | cons b rest ih =>
    have hb : b.id ≠ nb.id := h b (List.mem_cons_self b rest)
    simp only [List.cons_append, eraseBooking, beq_iff_eq, if_neg hb,
      List.append_eq]
    rw [ih (fun q hq => h q (List.mem_cons_of_mem b hq))]

/-- A patch `$set` on a list with no matching document changes
nothing. -/
lemma updateFirst_no_match {props : List Property} {pid : Nat}
    {u : PropertyPatch} (h : ∀ p ∈ props, p.id ≠ pid) :
    updateFirst props pid u = props := by
  induction props with
  | nil => rfl
  | cons p rest ih =>
    have hp : p.id ≠ pid := h p (List.mem_cons_self p rest)
    simp only [updateFirst, beq_iff_eq, if_neg hp]
    rw [ih (fun q hq => h q (List.mem_cons_of_mem p hq))]

/-! ### Witness fixtures -/

/-- A sample catalog document used by concrete witnesses. -/
def sampleProp : Property :=
  ⟨0, "Sea View", "Goa", "villa", "quiet", 100, true, "img0"⟩

/-- A sample booking request referencing `sampleProp`. -/
def sampleReq : BookingRequest :=
  ⟨some 0, "Sea View", 100, "Goa", "img0", "2024-01-01", "2024-01-05"⟩

/-! ### Claims -/

/-- C1: for every `per_page > 0`, every requested page, and every filter
combination, the listing operation's clamped page lies in
`[1, max 1 (ceil(total/per_page))]` where `total` counts the matching
properties, and the computed skip offset is nonnegative. -/
theorem C1_clamped_page_bounds (props : List Property) (tf pf lf : String)
    (page per_page : Int) (hp : 0 < per_page) :
    1 ≤ clampPage page
        (totalPages (props.filter (matchesFilter tf pf lf)).length per_page) ∧
    clampPage page
        (totalPages (props.filter (matchesFilter tf pf lf)).length per_page) ≤
      max 1 ((ceilPages (props.filter (matchesFilter tf pf lf)).length
        per_page.toNat : Nat) : Int) ∧
    0 ≤ skipVal (clampPage page
        (totalPages (props.filter (matchesFilter tf pf lf)).length per_page))
        per_page := by
  refine ⟨one_le_clampPage _ _, ?_, skipVal_nonneg _ _⟩
  rcases Nat.eq_zero_or_pos (props.filter (matchesFilter tf pf lf)).length
    with h0 | hpos
  · rw [h0, totalPages_zero hp]
    exact clampPage_le (le_max_left _ _)
      (le_trans zero_le_one (le_max_left _ _))
  · rw [totalPages_pos hpos hp]
    exact clampPage_le (le_max_left _ _) (le_max_right _ _)

/-- C1 witness: the bounds at a one-document catalog, page 7, two per
page. -/
theorem C1_clamped_page_bounds_witness :
    1 ≤ clampPage 7
        (totalPages (([sampleProp]).filter (matchesFilter "" "" "")).length 2) ∧
    clampPage 7
        (totalPages (([sampleProp]).filter (matchesFilter "" "" "")).length 2) ≤
      max 1 ((ceilPages (([sampleProp]).filter (matchesFilter "" "" "")).length
        (2 : Int).toNat : Nat) : Int) ∧
    0 ≤ skipVal (clampPage 7
        (totalPages (([sampleProp]).filter (matchesFilter "" "" "")).length 2))
        2 :=
  C1_clamped_page_bounds [sampleProp] "" "" "" 7 2 (by decide)

/-- C2 counterexample: with zero matching documents and `per_page = 9`,
the code derives `total_pages = 0`, not the claimed minimum of one. -/
theorem C2_total_pages_zero_counterexample :
    totalPages 0 9 = 0 ∧ ¬ (1 ≤ totalPages 0 9) := by decide

/-- C2 amended: the listing derives `total_pages = ceil(total/per_page)`
whenever at least one document matches, but derives `total_pages = 0` when
none does; the later clamp still forces the page to one and the skip to
zero in that case. -/
theorem C2_amended_total_pages (props : List Property) (tf pf lf : String)
    (page per_page : Int) (hp : 0 < per_page) :
    (0 < (props.filter (matchesFilter tf pf lf)).length →
      totalPages (props.filter (matchesFilter tf pf lf)).length per_page =
        ((ceilPages (props.filter (matchesFilter tf pf lf)).length
          per_page.toNat : Nat) : Int)) ∧
    totalPages 0 per_page = 0 ∧
    clampPage page (totalPages 0 per_page) = 1 ∧
    skipVal (clampPage page (totalPages 0 per_page)) per_page = 0 := by
  have hzero : totalPages 0 per_page = 0 := totalPages_zero hp
  have hclamp : clampPage page (totalPages 0 per_page) = 1 := by
    rw [hzero]
    unfold clampPage
    have hmin : min page 0 ≤ 1 := le_trans (min_le_right _ _) (by norm_num)
    exact max_eq_left hmin
  refine ⟨fun ht => totalPages_pos ht hp, hzero, hclamp, ?_⟩
  rw [hclamp]
  simp [skipVal]

/-- C2 amended witness: the amended facts at a one-document catalog. -/
theorem C2_amended_total_pages_witness :
    totalPages (([sampleProp]).filter (matchesFilter "" "" "")).length 2 =
      ((ceilPages (([sampleProp]).filter (matchesFilter "" "" "")).length
        (2 : Int).toNat : Nat) : Int) ∧
    totalPages 0 2 = 0 ∧
    clampPage 3 (totalPages 0 2) = 1 ∧
    skipVal (clampPage 3 (totalPages 0 2)) 2 = 0 :=
  have h := C2_amended_total_pages [sampleProp] "" "" "" 3 2 (by decide)
  ⟨h.1 (by decide), h.2.1, h.2.2.1, h.2.2.2⟩

/-- C6: when the filters match no property and `per_page > 0`, the listing
operation returns the empty page (and in particular does not fail). -/
theorem C6_empty_match_empty_page (props : List Property) (sort_by : String)
    (sort_order page per_page : Int) (tf pf lf : String)
    (_hp : 0 < per_page)
    (h : props.filter (matchesFilter tf pf lf) = []) :
    get_all_properties props sort_by sort_order page per_page tf pf lf
      = [] := by
  unfold get_all_properties
  rw [h]
  simp [sortProps, sortByLe]

/-- C6 witness: a one-document catalog filtered by a location it does not
carry yields the empty page. -/
theorem C6_empty_match_empty_page_witness :
    get_all_properties [sampleProp] "price_per_night" 1 1 9 "" "" "Mumbai"
      = [] :=
  C6_empty_match_empty_page [sampleProp] "price_per_night" 1 1 9 "" "" "Mumbai"
    (by decide) (by decide)

/-- C9: the property update operation answers the fixed success message
for every id, and an id matching no stored document leaves the store
unchanged. -/
theorem C9_update_never_not_found (props : List Property) (pid : Nat)
    (u : PropertyPatch) :
    (update_property props pid u).2 = "Property updated successfully" ∧
    ((∀ p ∈ props, p.id ≠ pid) → (update_property props pid u).1 = props) :=
  ⟨rfl, fun h => updateFirst_no_match h⟩

/-- C9 witness: updating an id absent from a one-document store answers
success and changes nothing. -/
theorem C9_update_never_not_found_witness :
    (update_property [sampleProp] 42 {}).2 = "Property updated successfully" ∧
    (update_property [sampleProp] 42 {}).1 = [sampleProp] :=
  have h := C9_update_never_not_found [sampleProp] 42 {}
  ⟨h.1, h.2 (by decide)⟩

/-- C5: deleting a booking id absent from the ledger answers not-found and
leaves the whole state — bookings and property flags — unchanged. -/
theorem C5_delete_missing_booking (s : AppState) (bid : Nat)
    (h : ∀ b ∈ s.book, b.id ≠ bid) :
    delete_book_data s bid = (s, DeleteResult.notFound) := by
  have hf : s.book.find? (fun b => b.id == bid) = none :=
    List.find?_eq_none.mpr (fun b hb => by simpa using h b hb)
  simp [delete_book_data, hf]

/-- C5 witness: deleting id 99 from a ledger that only holds booking 7
answers not-found and returns the state intact. -/
theorem C5_delete_missing_booking_witness :
    delete_book_data
        ⟨[sampleProp], [⟨7, some 0, "Sea View", 100, "Goa", "img0",
          "2024-01-01", "2024-01-05"⟩], 8⟩ 99 =
      (⟨[sampleProp], [⟨7, some 0, "Sea View", 100, "Goa", "img0",
          "2024-01-01", "2024-01-05"⟩], 8⟩, DeleteResult.notFound) :=
  C5_delete_missing_booking _ 99 (by decide)

/-- C10: a booking-creation request whose property id matches no catalog
document still persists the booking, returns the fresh id, and changes no
property's status. -/
theorem C10_booking_skips_validation (s : AppState) (req : BookingRequest)
    (h : ∀ pid, req.property_id = some pid → ∀ p ∈ s.properties, p.id ≠ pid) :
    post_property_to_book_collection s req =
      (⟨s.properties, s.book ++ [mkBooking s.nextId req], s.nextId + 1⟩,
        s.nextId) := by
  obtain ⟨P, B, N⟩ := s
  cases hreq : req.property_id with
  | none => simp [post_property_to_book_collection, mkBooking, hreq]
  | some pid =>
    simp [post_property_to_book_collection, mkBooking, hreq,
      setStatus_no_match (h pid hreq)]

/-- C10 witness: booking against an id the catalog does not hold persists
the booking and leaves the property intact. -/
theorem C10_booking_skips_validation_witness :
    post_property_to_book_collection ⟨[sampleProp], [], 5⟩
        ⟨some 17, "Ghost", 10, "Nowhere", "img9", "2024-02-01",
          "2024-02-02"⟩ =
      (⟨[sampleProp],
        [mkBooking 5 ⟨some 17, "Ghost", 10, "Nowhere", "img9", "2024-02-01",
          "2024-02-02"⟩], 6⟩, 5) :=
  C10_booking_skips_validation ⟨[sampleProp], [], 5⟩ _
    (by
      intro pid hpid p hp
      simp only [Option.some.injEq] at hpid
      simp only [List.mem_singleton] at hp
      subst hpid
      subst hp
      decide)

/-- C3: booking a property present in the catalog sets its status to
false, and deleting that same booking answers 200 and sets the status back
to true. -/
theorem C3_booking_status_roundtrip (s : AppState) (req : BookingRequest)
    (pid : Nat) (hreq : req.property_id = some pid)
    (hP : (findProp s.properties pid).isSome = true)
    (hfresh : ∀ b ∈ s.book, b.id ≠ s.nextId) :
    ((findProp (post_property_to_book_collection s req).1.properties
        pid).map Property.status = some false) ∧
    (delete_book_data (post_property_to_book_collection s req).1
        (post_property_to_book_collection s req).2).2 = DeleteResult.ok ∧
    ((findProp (delete_book_data (post_property_to_book_collection s req).1
        (post_property_to_book_collection s req).2).1.properties
        pid).map Property.status = some true) := by
  obtain ⟨p, hp⟩ := Option.isSome_iff_exists.mp hP
  have hpost : post_property_to_book_collection s req =
      (⟨setStatus s.properties pid false,
        s.book ++ [mkBooking s.nextId req], s.nextId + 1⟩, s.nextId) := by
    simp [post_property_to_book_collection, mkBooking, hreq]
  have hnb : (mkBooking s.nextId req).id = s.nextId := by
    simp [mkBooking]
  have hfind : (s.book ++ [mkBooking s.nextId req]).find?
      (fun b => b.id == (mkBooking s.nextId req).id) =
      some (mkBooking s.nextId req) :=
    find?_append_fresh _ (by rw [hnb]; exact hfresh)
  have herase : eraseBooking (s.book ++ [mkBooking s.nextId req])
      (mkBooking s.nextId req).id = s.book :=
    eraseBooking_append_fresh _ (by rw [hnb]; exact hfresh)
  have hdel : delete_book_data (post_property_to_book_collection s req).1
      (post_property_to_book_collection s req).2 =
      (⟨setStatus (setStatus s.properties pid false) pid true, s.book,
        s.nextId + 1⟩, DeleteResult.ok) := by
    rw [hpost]
    simp only [delete_book_data]
    rw [show (fun (b : Booking) => b.id == s.nextId) =
        (fun (b : Booking) => b.id == (mkBooking s.nextId req).id) from rfl,
      hfind]
    have hbp : (mkBooking s.nextId req).property_id = some pid := hreq
    rw [hnb] at herase
    simp [hbp, herase]
  refine ⟨?_, by rw [hdel], ?_⟩
  · rw [hpost]
    simp only
    rw [findProp_setStatus, hp]
    rfl
  · rw [hdel]
    simp only
    rw [findProp_setStatus, findProp_setStatus, hp]
    rfl

/-- C3 witness: the round-trip on a one-property catalog with an empty
ledger. -/
theorem C3_booking_status_roundtrip_witness :
    ((findProp (post_property_to_book_collection ⟨[sampleProp], [], 5⟩
        sampleReq).1.properties 0).map Property.status = some false) ∧
    (delete_book_data (post_property_to_book_collection ⟨[sampleProp], [], 5⟩
        sampleReq).1
        (post_property_to_book_collection ⟨[sampleProp], [], 5⟩
          sampleReq).2).2 = DeleteResult.ok ∧
    ((findProp (delete_book_data
        (post_property_to_book_collection ⟨[sampleProp], [], 5⟩ sampleReq).1
        (post_property_to_book_collection ⟨[sampleProp], [], 5⟩
          sampleReq).2).1.properties 0).map Property.status = some true) :=
  C3_booking_status_roundtrip ⟨[sampleProp], [], 5⟩ sampleReq 0 rfl
    (by decide) (by decide)

/-! ### Invariant lemmas -/

/-- A member of a status-updated list whose id differs from the updated id
was already in the list, unchanged. -/
lemma mem_setStatus_ne {props : List Property} {pid : Nat} {st : Bool}
    {q : Property} (hq : q ∈ setStatus props pid st) (hne : q.id ≠ pid) :
    q ∈ props := by
  induction props with
  | nil => simp [setStatus] at hq
  | cons p rest ih =>
    by_cases hp : p.id = pid
    · simp only [setStatus, beq_iff_eq, if_pos hp, List.mem_cons] at hq
      rcases hq with hq | hq
      · exact absurd (hq ▸ hp) hne
      · exact List.mem_cons_of_mem p hq
    · simp only [setStatus, beq_iff_eq, if_neg hp, List.mem_cons] at hq
      rcases hq with hq | hq
      · exact hq ▸ List.mem_cons_self p rest
      · exact List.mem_cons_of_mem p (ih hq)

/-- With no duplicate ids, a member of a status-updated list that carries
the updated id carries the new status. -/
lemma mem_setStatus_eq {props : List Property} {pid : Nat} {st : Bool}
    {q : Property} (hn : (props.map Property.id).Nodup)
    (hq : q ∈ setStatus props pid st) (heq : q.id = pid) :
    q.status = st := by
  induction props with
  | nil => simp [setStatus] at hq
  | cons p rest ih =>
    rw [List.map_cons, List.nodup_cons] at hn
    by_cases hp : p.id = pid
    · simp only [setStatus, beq_iff_eq, if_pos hp, List.mem_cons] at hq
      rcases hq with hq | hq
      · rw [hq]
      · have hmem : q.id ∈ rest.map Property.id :=
          List.mem_map_of_mem Property.id hq
        rw [heq, ← hp] at hmem
        exact absurd hmem hn.1
    · simp only [setStatus, beq_iff_eq, if_neg hp, List.mem_cons] at hq
      rcases hq with hq | hq
      · exact absurd (hq ▸ heq) hp
      · exact ih hn.2 hq

/-- The predicate `refsProp` distributes over appended ledgers. -/
lemma refsProp_append (l1 l2 : List Booking) (x : Nat) :
    refsProp (l1 ++ l2) x = (refsProp l1 x || refsProp l2 x) := by
  simp [refsProp, List.any_append]

/-- The predicate `refsProp` on a non-empty ledger. -/
lemma refsProp_cons (b : Booking) (rest : List Booking) (x : Nat) :
    refsProp (b :: rest) x = ((b.property_id == some x) || refsProp rest x) := by
  simp [refsProp]

/-- A successful ledger lookup splits the ledger around the found booking,
and the delete removes exactly it. -/
lemma find?_booking_split {book : List Booking} {bid : Nat} {be : Booking}
    (h : book.find? (fun b => b.id == bid) = some be) :
    ∃ l1 l2, book = l1 ++ be :: l2 ∧ eraseBooking book bid = l1 ++ l2 := by
  induction book with
  | nil => simp [List.find?] at h
  | cons b rest ih =>
    by_cases hb : b.id = bid
    · rw [List.find?_cons_of_pos _ (by simpa using hb)] at h
      obtain rfl : b = be := by injection h
      exact ⟨[], rest, rfl, by simp [eraseBooking, hb]⟩
    · rw [List.find?_cons_of_neg _ (by simpa using hb)] at h
      obtain ⟨l1, l2, h1, h2⟩ := ih h
      exact ⟨b :: l1, l2, by rw [h1]; rfl,
        by simp only [eraseBooking, beq_iff_eq, if_neg hb, h2]; rfl⟩

/-- If no two bookings share a property and the removed booking references
`pid`, no remaining booking references `pid`. -/
lemma atMostOne_remove {l1 l2 : List Booking} {be : Booking} {pid : Nat}
    (hone : atMostOneActive (l1 ++ be :: l2) = true)
    (hbe : be.property_id = some pid) :
    refsProp (l1 ++ l2) pid = false := by
  induction l1 with
  | nil =>
    simp only [List.nil_append, atMostOneActive, Bool.and_eq_true,
      List.all_eq_true] at hone
    simp only [List.nil_append, refsProp, List.any_eq_false]
    intro c hc
    have h1 := hone.1 c hc
    rw [hbe] at h1
    simp only [Option.isSome_some, Bool.true_and, Bool.not_eq_eq_eq_not,
      Bool.not_true, beq_eq_false_iff_ne] at h1
    simp only [beq_iff_eq]
    exact fun h => h1 h.symm
  | cons a l1' ih =>
    simp only [List.cons_append, atMostOneActive, Bool.and_eq_true,
      List.all_eq_true] at hone
    have ha : (a.property_id == some pid) = false := by
      have hbe_mem : be ∈ l1' ++ be :: l2 :=
        List.mem_append_right _ (List.mem_cons_self be l2)
      have := hone.1 be hbe_mem
      rw [hbe] at this
      by_cases hap : a.property_id = some pid
      · rw [hap] at this
        simp at this
      · simpa using hap
    rw [List.cons_append, refsProp_cons, ha, Bool.false_or]
    exact ih hone.2

/-- The invariant, pointwise. -/
lemma statusInvariant_iff (s : AppState) :
    statusInvariant s = true ↔
      ∀ p ∈ s.properties, p.status = !refsProp s.book p.id := by
  simp [statusInvariant, List.all_eq_true]

/-- C4 counterexample: with two bookings against the same property the
invariant holds, yet deleting one of them restores the status to true
while the other booking still references the property, so a booking delete
does not preserve the invariant for arbitrarily many bookings per
property. -/
theorem C4_invariant_broken_by_second_booking :
    statusInvariant
      ⟨[⟨0, "t", "l", "a", "d", 100, false, "i"⟩],
        [⟨10, some 0, "t", 100, "l", "i", "b", "e"⟩,
         ⟨11, some 0, "t", 100, "l", "i", "b", "e"⟩], 12⟩ = true ∧
    statusInvariant (delete_book_data
      ⟨[⟨0, "t", "l", "a", "d", 100, false, "i"⟩],
        [⟨10, some 0, "t", 100, "l", "i", "b", "e"⟩,
         ⟨11, some 0, "t", 100, "l", "i", "b", "e"⟩], 12⟩ 10).1 = false := by
  decide

/-- C4 amended: over a catalog without duplicate ids, every booking
creation preserves the availability invariant, and a booking deletion
preserves it provided no two bookings reference the same property. -/
theorem C4_amended_invariant_preservation (s : AppState)
    (req : BookingRequest) (bid : Nat)
    (hn : (s.properties.map Property.id).Nodup)
    (hinv : statusInvariant s = true) :
    statusInvariant (post_property_to_book_collection s req).1 = true ∧
    (atMostOneActive s.book = true →
      statusInvariant (delete_book_data s bid).1 = true) := by
  rw [statusInvariant_iff] at hinv
  constructor
  · -- booking creation
    cases hreq : req.property_id with
    | none =>
      have hpost : (post_property_to_book_collection s req).1 =
          ⟨s.properties, s.book ++ [mkBooking s.nextId req], s.nextId + 1⟩ := by
        simp [post_property_to_book_collection, hreq]
      rw [hpost, statusInvariant_iff]
      intro q hq
      have hsingle : refsProp [mkBooking s.nextId req] q.id = false := by
        simp [refsProp, mkBooking, hreq]
      rw [show (⟨s.properties, s.book ++ [mkBooking s.nextId req],
        s.nextId + 1⟩ : AppState).book = s.book ++ [mkBooking s.nextId req]
        from rfl, refsProp_append, hsingle, Bool.or_false]
      exact hinv q hq
    | some pid =>
      have hpost : (post_property_to_book_collection s req).1 =
          ⟨setStatus s.properties pid false,
            s.book ++ [mkBooking s.nextId req], s.nextId + 1⟩ := by
        simp [post_property_to_book_collection, hreq]
      rw [hpost, statusInvariant_iff]
      intro q hq
      simp only at hq ⊢
      rw [refsProp_append]
      by_cases hid : q.id = pid
      · have hst : q.status = false := mem_setStatus_eq hn hq hid
        have hsingle : refsProp [mkBooking s.nextId req] q.id = true := by
          simp [refsProp, mkBooking, hreq, hid]
        rw [hsingle, Bool.or_true, hst]
        rfl
      · have hmem := mem_setStatus_ne hq hid
        have hsingle : refsProp [mkBooking s.nextId req] q.id = false := by
          simp only [refsProp, List.any_cons, List.any_nil, Bool.or_false,
            mkBooking, hreq, beq_eq_false_iff_ne]
          exact fun h => hid (by injection h with h2; exact h2.symm)
        rw [hsingle, Bool.or_false]
        exact hinv q hmem
  · -- booking deletion under the one-booking-per-property regime
    intro hone
    cases hf : s.book.find? (fun b => b.id == bid) with
    | none =>
      have : (delete_book_data s bid).1 = s := by
        simp [delete_book_data, hf]
      rw [this, statusInvariant_iff]
      exact hinv
    | some be =>
      obtain ⟨l1, l2, hbook, herase⟩ := find?_booking_split hf
      cases hbe : be.property_id with
      | none =>
        have hdel : (delete_book_data s bid).1 =
            ⟨s.properties, l1 ++ l2, s.nextId⟩ := by
          simp [delete_book_data, hf, hbe, herase]
        rw [hdel, statusInvariant_iff]
        intro q hq
        simp only at hq ⊢
        have hrefs : refsProp (l1 ++ l2) q.id = refsProp s.book q.id := by
          rw [hbook, refsProp_append, refsProp_append, refsProp_cons]
          have : (be.property_id == some q.id) = false := by
            simp [hbe]
          rw [this, Bool.false_or]
        rw [hrefs]
        exact hinv q hq
      | some pid =>
        have hdel : (delete_book_data s bid).1 =
            ⟨setStatus s.properties pid true, l1 ++ l2, s.nextId⟩ := by
          simp [delete_book_data, hf, hbe, herase]
        rw [hdel, statusInvariant_iff]
        intro q hq
        simp only at hq ⊢
        by_cases hid : q.id = pid
        · have hst : q.status = true := mem_setStatus_eq hn hq hid
          have hrefs : refsProp (l1 ++ l2) pid = false :=
            atMostOne_remove (hbook ▸ hone) hbe
          rw [hid, hrefs, hst]
          rfl
        · have hmem := mem_setStatus_ne hq hid
          have hrefs : refsProp (l1 ++ l2) q.id = refsProp s.book q.id := by
            rw [hbook, refsProp_append, refsProp_append, refsProp_cons]
            have : (be.property_id == some q.id) = false := by
              simp only [hbe, beq_eq_false_iff_ne]
              exact fun h => hid (by injection h with h2; exact h2.symm)
            rw [this, Bool.false_or]
          rw [hrefs]
          exact hinv q hmem

/-- C4 amended witness: preservation at a one-property, one-booking
state. -/
theorem C4_amended_invariant_preservation_witness :
    statusInvariant (post_property_to_book_collection
      ⟨[⟨0, "t", "l", "a", "d", 100, false, "i"⟩],
        [⟨10, some 0, "t", 100, "l", "i", "b", "e"⟩], 12⟩ sampleReq).1
      = true ∧
    statusInvariant (delete_book_data
      ⟨[⟨0, "t", "l", "a", "d", 100, false, "i"⟩],
        [⟨10, some 0, "t", 100, "l", "i", "b", "e"⟩], 12⟩ 10).1 = true :=
  have h := C4_amended_invariant_preservation
    ⟨[⟨0, "t", "l", "a", "d", 100, false, "i"⟩],
      [⟨10, some 0, "t", 100, "l", "i", "b", "e"⟩], 12⟩ sampleReq 10
    (by decide) (by decide)
  ⟨h.1, h.2 (by decide)⟩

/-- C7 counterexample: with an email present in both partitions, signup
under the other role partition answers Conflict rather than succeeding, so
the other-role signup does not succeed unconditionally. -/
theorem C7_both_partitions_counterexample :
    ((⟨[⟨0, "e", "h"⟩], [⟨1, "e", "h"⟩], 2⟩ : AuthState).hosts.any
      (fun c => c.email == "e") = true) ∧
    guest_signup (fun p => p) ⟨[⟨0, "e", "h"⟩], [⟨1, "e", "h"⟩], 2⟩ "e" "pw" =
      (⟨[⟨0, "e", "h"⟩], [⟨1, "e", "h"⟩], 2⟩, SignupResult.conflict) := by
  decide

/-- C7 amended: signup with an email already in the same role's partition
answers Conflict and adds no record, and signup under the other role
succeeds with a fresh identity provided the email is absent from that
other partition — each role checks only its own collection. -/
theorem C7_amended_role_partitions (hash : String → String) (s : AuthState)
    (e pw : String) :
    ((s.hosts.find? (fun c => c.email == e)).isSome = true →
      host_signup hash s e pw = (s, SignupResult.conflict)) ∧
    ((s.guests.find? (fun c => c.email == e)).isSome = true →
      guest_signup hash s e pw = (s, SignupResult.conflict)) ∧
    (s.hosts.find? (fun c => c.email == e) = none →
      host_signup hash s e pw =
        (⟨s.hosts ++ [⟨s.nextId, e, hash pw⟩], s.guests, s.nextId + 1⟩,
          SignupResult.created s.nextId)) ∧
    (s.guests.find? (fun c => c.email == e) = none →
      guest_signup hash s e pw =
        (⟨s.hosts, s.guests ++ [⟨s.nextId, e, hash pw⟩], s.nextId + 1⟩,
          SignupResult.created s.nextId)) := by
  obtain ⟨H, G, N⟩ := s
  refine ⟨?_, ?_, ?_, ?_⟩
  · intro h
    obtain ⟨c, hc⟩ := Option.isSome_iff_exists.mp h
    simp only at hc
    simp [host_signup, hc]
  · intro h
    obtain ⟨c, hc⟩ := Option.isSome_iff_exists.mp h
    simp only at hc
    simp [guest_signup, hc]
  · intro h
    simp only at h
    simp [host_signup, h]
  · intro h
    simp only at h
    simp [guest_signup, h]

/-- C7 amended witness: an email held by a host conflicts on host signup
and succeeds on guest signup. -/
theorem C7_amended_role_partitions_witness :
    host_signup (fun p => p) ⟨[⟨0, "e", "h"⟩], [], 1⟩ "e" "pw" =
      (⟨[⟨0, "e", "h"⟩], [], 1⟩, SignupResult.conflict) ∧
    guest_signup (fun p => p) ⟨[⟨0, "e", "h"⟩], [], 1⟩ "e" "pw" =
      (⟨[⟨0, "e", "h"⟩], [⟨1, "e", "pw"⟩], 2⟩, SignupResult.created 1) :=
  have h := C7_amended_role_partitions (fun p => p) ⟨[⟨0, "e", "h"⟩], [], 1⟩
    "e" "pw"
  ⟨h.1 (by decide), h.2.2.2 (by decide)⟩

/-- C8: a failed login answers the one Unauthorized result both when the
email is absent and when it is present with a password the verifier
rejects, for the host and the guest route alike, so the response does not
reveal whether the email exists. -/
theorem C8_login_failure_uniform (verify : String → String → Bool)
    (s : AuthState) (e pw : String) :
    (s.hosts.find? (fun c => c.email == e) = none →
      host_login verify s e pw = LoginResult.unauthorized) ∧
    (∀ c, s.hosts.find? (fun c => c.email == e) = some c →
      verify c.password pw = false →
      host_login verify s e pw = LoginResult.unauthorized) ∧
    (s.guests.find? (fun c => c.email == e) = none →
      guest_login verify s e pw = LoginResult.unauthorized) ∧
    (∀ c, s.guests.find? (fun c => c.email == e) = some c →
      verify c.password pw = false →
      guest_login verify s e pw = LoginResult.unauthorized) := by
  refine ⟨?_, ?_, ?_, ?_⟩
  · intro h
    simp [host_login, h]
  · intro c hc hv
    simp [host_login, hc, hv]
  · intro h
    simp [guest_login, h]
  · intro c hc hv
    simp [guest_login, hc, hv]

/-- C8 witness: over a store holding host and guest "e", logging in with an
unknown email and with a wrong password both answer Unauthorized. -/
theorem C8_login_failure_uniform_witness :
    host_login (fun stored p => stored == p) ⟨[⟨0, "e", "h"⟩], [⟨1, "e", "h"⟩], 2⟩
      "z" "pw" = LoginResult.unauthorized ∧
    host_login (fun stored p => stored == p) ⟨[⟨0, "e", "h"⟩], [⟨1, "e", "h"⟩], 2⟩
      "e" "wrong" = LoginResult.unauthorized ∧
    guest_login (fun stored p => stored == p) ⟨[⟨0, "e", "h"⟩], [⟨1, "e", "h"⟩], 2⟩
      "z" "pw" = LoginResult.unauthorized ∧
    guest_login (fun stored p => stored == p) ⟨[⟨0, "e", "h"⟩], [⟨1, "e", "h"⟩], 2⟩
      "e" "wrong" = LoginResult.unauthorized :=
  have hz := C8_login_failure_uniform (fun stored p => stored == p)
    ⟨[⟨0, "e", "h"⟩], [⟨1, "e", "h"⟩], 2⟩ "z" "pw"
  have he := C8_login_failure_uniform (fun stored p => stored == p)
    ⟨[⟨0, "e", "h"⟩], [⟨1, "e", "h"⟩], 2⟩ "e" "wrong"
  ⟨hz.1 (by decide), he.2.1 ⟨0, "e", "h"⟩ (by decide) (by decide),
    hz.2.2.1 (by decide), he.2.2.2 ⟨1, "e", "h"⟩ (by decide) (by decide)⟩

end Horizon
